import Mathlib

/-
Verification development for the APP_LSIS2 repository (synthetic electricity
telemetry generator and two ridge-regression training pipelines).

The numeric model embeds the Python sources shallowly:
  apps/backend/ai_generate.py      -> namespace Gen
  apps/backend/ai_train.py         -> namespace Train (plus shared kernel below)
  apps/backend/ai_power_train.py   -> namespace Power
Python floats are modelled as real numbers (exact arithmetic); the pseudo-random
stream is modelled by passing the drawn values explicitly.
-/

open Real

/-- ai_generate.py line 14: `RATE_EUR_PER_KWH = 0.20` (a module-level constant). -/
def RATE_EUR_PER_KWH : ℝ := 0.20

/-- ai_generate.py line 15: `INTERVAL_MINUTES = 15`. -/
def INTERVAL_MINUTES : ℝ := 15

/-- ai_generate.py line 16: `INTERVAL_HOURS = INTERVAL_MINUTES / 60.0`. -/
noncomputable def INTERVAL_HOURS : ℝ := INTERVAL_MINUTES / 60

namespace Gen

/-- Fields of the `Customer` dataclass of ai_generate.py (lines 33-54) that are
read by `seasonal_temperature` and `simulate_watts`; string identity fields
(id, name, utility, ...) that no modelled function reads are omitted. -/
structure Customer where
  segment : String
  city : String
  contracted_power_kva : ℝ
  price_eur_per_kwh : ℝ
  home_area_m2 : ℝ
  household_size : ℤ
  has_solar : ℤ
  ev_count : ℤ

/-- The timestamp data read by `simulate_watts` (ai_generate.py lines 302-304):
`hour = ts.hour + ts.minute / 60.0`, `dow = ts.weekday()` and, through
`seasonal_temperature`, `ts.timetuple().tm_yday`. -/
structure Ts where
  hour : ℝ
  dow : ℕ
  dayOfYear : ℕ

/-- The values drawn from the pseudo-random stream during one `simulate_watts`
call: `rng.gauss(0.0, 1.2)` for the temperature, `rng.random()` for the EV
branch, `rng.gauss(0.0, max(12.0, 0.03*load))` for the blend noise,
`rng.random()` for the spike branch and `rng.uniform(800.0, 2200.0)` for the
spike size. -/
structure Draws where
  tempNoise : ℝ
  evDraw : ℝ
  noise : ℝ
  spikeDraw : ℝ
  spikeAmt : ℝ

/-- The coastal-city set of ai_generate.py line 297. -/
def coastalCities : List String := ["Porto", "Matosinhos", "Vila Nova de Gaia", "Aveiro"]

/-- ai_generate.py lines 293-298 (`seasonal_temperature`, deterministic part):
`16.0 + 7.0*sin(2*pi*(day_of_year - 170)/365.0)` plus `-1.0` for coastal
cities. ai_train.py lines 103-107 (`_seasonal_temp`) is the identical formula. -/
noncomputable def seasonal_temperature (dayOfYear : ℕ) (city : String) : ℝ :=
  16 + 7 * Real.sin (2 * Real.pi * ((dayOfYear : ℝ) - 170) / 365) +
    (if city ∈ coastalCities then (-1 : ℝ) else 0)

/-- ai_generate.py lines 308-322: the segment-specific instantaneous load curve. -/
noncomputable def baseLoad (segment : String) (hour : ℝ) (is_weekend : Bool) : ℝ :=
  if segment = "residential" then
    (180 + 220 * Real.exp (-((hour - 7.5) ^ 2) / 5.5) +
      380 * Real.exp (-((hour - 20.5) ^ 2) / 7)) * (if is_weekend then 1.15 else 1)
  else if segment = "sme" then
    (420 + 900 * Real.exp (-((hour - 13) ^ 2) / 18)) * (if is_weekend then 0.55 else 1)
  else
    1500 + 1200 * Real.exp (-((hour - 11) ^ 2) / 26)

/-- ai_generate.py lines 325-326: `1.0 + (home_area_m2 - 80.0)/420.0` clamped to `[0.7, 2.2]`. -/
noncomputable def areaFactor (home_area_m2 : ℝ) : ℝ :=
  max 0.7 (min 2.2 (1 + (home_area_m2 - 80) / 420))

/-- ai_generate.py lines 327-328: `1.0 + (household_size - 2)*0.08` clamped to `[0.75, 2.0]`. -/
noncomputable def householdFactor (household_size : ℤ) : ℝ :=
  max 0.75 (min 2.0 (1 + ((household_size : ℝ) - 2) * 0.08))

/-- ai_generate.py lines 332-333: `18.0*max(0, 19.0 - temp_c) + 14.0*max(0, temp_c - 25.0)`. -/
noncomputable def tempEffect (temp_c : ℝ) : ℝ :=
  18 * max 0 (19 - temp_c) + 14 * max 0 (temp_c - 25)

/-- ai_generate.py lines 336-338: solar owners lose a bell-shaped share of the
load between 10:00 and 16:00. -/
noncomputable def solarAdjusted (c : Customer) (hour load : ℝ) : ℝ :=
  if c.has_solar ≠ 0 ∧ 10 ≤ hour ∧ hour ≤ 16 then
    load * (1 - (0.10 + 0.18 * Real.exp (-((hour - 13) ^ 2) / 4.5)))
  else load

/-- ai_generate.py lines 341-342: with probability 0.10 an overnight EV charge of
`900.0 * ev_count` watts is added between 00:00 and 06:00. -/
noncomputable def evAdjusted (c : Customer) (hour evDraw load : ℝ) : ℝ :=
  if c.ev_count > 0 ∧ (0 ≤ hour ∧ hour ≤ 6) ∧ evDraw < 0.10 then
    load + 900 * (c.ev_count : ℝ)
  else load

/-- ai_generate.py lines 354-358: clamp the blended value to `[40, cap]`
(line 354) and, when the spike draw fires, add the spike and re-clamp to the
cap (lines 357-358: `watts = min(cap, watts + rng.uniform(800.0, 2200.0))`). -/
noncomputable def finalWatts (w cap : ℝ) (spikeHit : Prop) [Decidable spikeHit] (spikeAmt : ℝ) : ℝ :=
  let clamped := max 40 (min w cap)
  if spikeHit then min cap (clamped + spikeAmt) else clamped

/-- ai_generate.py lines 301-361 (`simulate_watts`): returns
`(watts, temp_c, euros)` for one 15-minute reading. -/
noncomputable def simulate_watts (ts : Ts) (c : Customer) (last_watts : Option ℝ)
    (d : Draws) : ℝ × ℝ × ℝ :=
  let hour := ts.hour
  let is_weekend : Bool := decide (5 ≤ ts.dow)
  let temp_c := seasonal_temperature ts.dayOfYear c.city + d.tempNoise
  let load := baseLoad c.segment hour is_weekend * areaFactor c.home_area_m2 *
    householdFactor c.household_size
  let load := solarAdjusted c hour load
  let load := evAdjusted c hour d.evDraw load
  let contracted_watts := c.contracted_power_kva * 1000
  let cap := contracted_watts * 0.92
  let last := last_watts.getD load
  let watts := 0.70 * load + 0.25 * last + 0.05 * tempEffect temp_c + d.noise
  let watts := finalWatts watts cap
    (d.spikeDraw < (if c.segment = "residential" then 0.004 else 0.002)) d.spikeAmt
  let euros := watts / 1000 * RATE_EUR_PER_KWH * INTERVAL_HOURS
  (watts, temp_c, euros)

end Gen

/-
Shared linear-algebra kernel.  `invert_matrix` appears verbatim in both
ai_train.py (lines 192-223) and ai_power_train.py (lines 59-85); it is
modelled once, generically over a linear ordered field so that the very same
definition is executable at ℚ and usable at ℝ inside `ridge_fit`.
-/

variable {α : Type} [LinearOrderedField α]

/-- The singularity threshold `1e-12` of ai_train.py line 203 / ai_power_train.py line 68. -/
def singularEps : ℚ := 1e-12

/-- Row-major matrix entry access `m[r][c]`, defaulting to `0` out of range
(all modelled accesses are in range for the rectangular matrices the code
builds). -/
def entry (m : List (List α)) (r c : ℕ) : α := (m.getD r []).getD c 0

/-- ai_train.py lines 188-189 / ai_power_train.py lines 55-56: the `n × n`
identity matrix. -/
def identity (n : ℕ) : List (List α) :=
  (List.range n).map (fun i => (List.range n).map (fun j => if i = j then (1 : α) else 0))

/-- ai_train.py line 195: the augmented matrix `[A | I]`. -/
def augmentInit (a : List (List α)) : List (List α) :=
  List.zipWith (fun row irow => row ++ irow) a (identity a.length)

/-- The partial-pivot search of ai_train.py lines 199-202: starting from
`pivot = col`, every row `r ∈ [col+1, n)` with strictly larger `|aug[r][col]|`
replaces the current pivot. -/
def pivotSearch (aug : List (List α)) (col n : ℕ) : ℕ :=
  (List.range' (col + 1) (n - (col + 1))).foldl
    (fun p r => if |entry aug r col| > |entry aug p col| then r else p) col

/-- The largest absolute value in column `col` from row `col` downward, the
quantity the spec's singularity test is about. -/
def maxAbsBelow (aug : List (List α)) (col n : ℕ) : α :=
  (List.range' col (n - col)).foldl (fun m r => max m |entry aug r col|) 0

/-- Python's simultaneous swap `aug[col], aug[pivot] = aug[pivot], aug[col]`
(ai_train.py line 206). -/
def swapRows (m : List (List α)) (i j : ℕ) : List (List α) :=
  let ri := m.getD i []
  let rj := m.getD j []
  (m.set i rj).set j ri

/-- The elimination loop of ai_train.py lines 214-220: every row other than the
pivot row, whose factor is not negligible, gets `factor` times the (already
normalized) pivot row subtracted. -/
def eliminate (aug : List (List α)) (col n : ℕ) (prow : List α) : List (List α) :=
  (List.range n).foldl
    (fun m r =>
      if r = col then m
      else
        let factor := entry m r col
        if |factor| < (singularEps : α) then m
        else m.set r (List.zipWith (fun rv cv => rv - factor * cv) (m.getD r []) prow))
    aug

/-- One column step of Gauss-Jordan after the pivot check passed
(ai_train.py lines 205-220): swap the pivot row into place, normalize it by
`inv_pv = 1/pv`, then eliminate the column from the other rows. -/
def gjTransform (aug : List (List α)) (col n : ℕ) : List (List α) :=
  let piv := pivotSearch aug col n
  let aug1 := if piv ≠ col then swapRows aug col piv else aug
  let pv := entry aug1 col col
  let prow := (aug1.getD col []).map (fun x => x * (1 / pv))
  let aug2 := aug1.set col prow
  eliminate aug2 col n prow

/-- One iteration of the column loop of ai_train.py lines 197-220: select the
pivot, fail with the singular-matrix error when its magnitude is below `1e-12`
(line 203-204), otherwise transform. -/
def gjStep (aug : List (List α)) (col n : ℕ) : Except Unit (List (List α)) :=
  if |entry aug (pivotSearch aug col n) col| < (singularEps : α) then Except.error ()
  else Except.ok (gjTransform aug col n)

/-- The state of the augmented matrix after the first `k` columns of the
Gauss-Jordan loop have been processed (or the singular-matrix error if some
processed column failed the pivot check). -/
def gjStage (a : List (List α)) : ℕ → Except Unit (List (List α))
  | 0 => Except.ok (augmentInit a)
  | k + 1 =>
    match gjStage a k with
    | Except.error e => Except.error e
    | Except.ok aug => gjStep aug k a.length

/-- ai_train.py lines 192-223 / ai_power_train.py lines 59-85 (`invert_matrix`):
run Gauss-Jordan over all `n` columns and read the inverse off the right half
(`[row[n:] for row in aug]`, line 222).  `Except.error ()` models the raised
`ValueError` (singular matrix). -/
def invert_matrix (a : List (List α)) : Except Unit (List (List α)) :=
  (gjStage a a.length).map (fun aug => aug.map (fun row => row.drop a.length))

/-
Real-valued kernel shared by the two trainers (ai_train.py lines 171-287,
ai_power_train.py lines 42-147).
-/

/-- ai_train.py lines 171-172 / ai_power_train.py lines 42-43: `dot`. -/
noncomputable def dot (a b : List ℝ) : ℝ := (List.zipWith (fun x y => x * y) a b).sum

/-- ai_train.py lines 175-176: `mat_transpose` via `zip(*m)`. -/
def mat_transpose (m : List (List ℝ)) : List (List ℝ) := m.transpose

/-- ai_train.py lines 179-181 / ai_power_train.py lines 50-52: `mat_mul`. -/
noncomputable def mat_mul (a b : List (List ℝ)) : List (List ℝ) :=
  let bt := mat_transpose b
  a.map (fun row => bt.map (fun col => dot row col))

/-- ai_train.py lines 184-185: `mat_vec_mul` (ai_power_train.py inlines the same
comprehension `[dot(row, v) for row in a]` at lines 123 and 126). -/
noncomputable def mat_vec_mul (a : List (List ℝ)) (v : List ℝ) : List ℝ :=
  a.map (fun row => dot row v)

/-- Per-column mean of ai_train.py lines 230-234 / ai_power_train.py lines
92-96: `means[j] = (sum of column j) / n`. -/
noncomputable def meanCol (x : List (List ℝ)) (j : ℕ) : ℝ :=
  (x.map (fun row => row.getD j 0)).sum / (x.length : ℝ)

/-- Per-column sample standard deviation of ai_train.py lines 236-240:
`sqrt(sum((v - mean)^2) / max(1, n-1))` (Bessel, minimum denominator 1). -/
noncomputable def stdColRaw (x : List (List ℝ)) (j : ℕ) : ℝ :=
  Real.sqrt ((x.map (fun row => (row.getD j 0 - meanCol x j) ^ 2)).sum /
    (max 1 (x.length - 1) : ℕ))

/-- ai_train.py line 243 / ai_power_train.py line 103: `s if s > 1e-9 else 1.0`. -/
noncomputable def stdCol (x : List (List ℝ)) (j : ℕ) : ℝ :=
  if stdColRaw x j > 1e-9 then stdColRaw x j else 1

/-- ai_train.py lines 226-246 / ai_power_train.py lines 88-106 (`standardize`):
returns the z-scored matrix (`xz[i][j] = (x[i][j] - means[j]) / stds[j]`,
with `d = len(x[0])` columns) together with the mean and std vectors. -/
noncomputable def standardize (x : List (List ℝ)) :
    List (List ℝ) × List ℝ × List ℝ :=
  let d := x.headI.length
  (x.map (fun row => (List.range d).map (fun j => (row.getD j 0 - meanCol x j) / stdCol x j)),
   (List.range d).map (meanCol x),
   (List.range d).map (stdCol x))

/-- De-standardization as the spec's round-trip property words it: multiply
each z-score by its column std and add the column mean. -/
noncomputable def destandardize (xz : List (List ℝ)) (means stds : List ℝ) :
    List (List ℝ) :=
  xz.map (fun row =>
    (List.range row.length).map (fun j => row.getD j 0 * stds.getD j 0 + means.getD j 0))

/-- ai_train.py lines 261-262 / ai_power_train.py lines 120-121: add `l2` to
every diagonal entry of `XᵗX`. -/
noncomputable def addDiag (m : List (List ℝ)) (l2 : ℝ) : List (List ℝ) :=
  (List.range m.length).map (fun i =>
    (List.range (m.getD i []).length).map (fun j =>
      if i = j then entry m i j + l2 else entry m i j))

/-- ai_train.py lines 249-270 / ai_power_train.py lines 109-128 (`ridge_fit`):
standardize `X`, center `y` by its mean (which becomes the bias), form the
regularized normal equations and solve them through `invert_matrix`.  The
`Except` propagates the singular-matrix error. -/
noncomputable def ridge_fit (x : List (List ℝ)) (y : List ℝ) (l2 : ℝ) :
    Except Unit (List ℝ × ℝ × List ℝ × List ℝ) :=
  let s := standardize x
  let xz := s.1
  let means := s.2.1
  let stds := s.2.2
  let y_mean := y.sum / (x.length : ℝ)
  let yc := y.map (fun v => v - y_mean)
  let xt := mat_transpose xz
  let xtx := addDiag (mat_mul xt xz) l2
  let xty := mat_vec_mul xt yc
  (invert_matrix xtx).map (fun inv => (mat_vec_mul inv xty, y_mean, means, stds))

/-- ai_train.py lines 273-275 / ai_power_train.py lines 131-133 (`predict_row`):
standardize the row with the stored statistics and apply the linear model. -/
noncomputable def predict_row (row w : List ℝ) (b : ℝ) (means stds : List ℝ) : ℝ :=
  let xz := (List.range row.length).map (fun j => (row.getD j 0 - means.getD j 0) / stds.getD j 0)
  dot xz w + b

/-- Total sum of squares `SS_tot = Σ (yᵢ - mean y)²`, as the spec writes it. -/
noncomputable def ssTot (y : List ℝ) : ℝ :=
  (y.map (fun v => (v - y.sum / (y.length : ℝ)) ^ 2)).sum

/-- Residual sum of squares `SS_res = Σ (yᵢ - ŷᵢ)²`, as the spec writes it. -/
noncomputable def ssRes (y p : List ℝ) : ℝ :=
  (List.zipWith (fun a b => (a - b) ^ 2) y p).sum

/-- The evaluation record `{mae, rmse, r2}` returned by both `metrics`. -/
structure MetricsOut where
  mae : ℝ
  rmse : ℝ
  r2 : ℝ

namespace Train

/-- ai_train.py lines 278-287 (`metrics`).  Line 286 is
`r2 = 1.0 - (ss_res / ss_tot if ss_tot > 1e-12 else 0.0)`: the conditional
replaces only the ratio, so the degenerate case yields `1 - 0`. -/
noncomputable def metrics (y_true y_pred : List ℝ) : MetricsOut :=
  let n : ℝ := y_true.length
  let err := List.zipWith (fun yt yp => yp - yt) y_true y_pred
  let mae := (err.map (fun e => |e|)).sum / n
  let rmse := Real.sqrt ((err.map (fun e => e * e)).sum / n)
  let y_mean := y_true.sum / n
  let ss_tot := (y_true.map (fun yt => (yt - y_mean) ^ 2)).sum
  let ss_res := (List.zipWith (fun yt yp => (yt - yp) ^ 2) y_true y_pred).sum
  let r2 := 1 - (if ss_tot > 1e-12 then ss_res / ss_tot else 0)
  ⟨mae, rmse, r2⟩

/-- ai_train.py lines 345-347: `split = int(len(idx) * 0.8)`, training indices
`idx[:split]`, held-out indices `idx[split:]`.  `int(n * 0.8) = ⌊4n/5⌋` for the
sample counts at hand. -/
def train_test_split (idx : List ℕ) : List ℕ × List ℕ :=
  let split := 4 * idx.length / 5
  (idx.take split, idx.drop split)

/-- The model payload assembled by ai_train.py lines 358-370 /
ai_power_train.py lines 254-264 (fields with algorithmic content only). -/
structure Artifact where
  l2 : ℝ
  mean : List ℝ
  std : List ℝ
  weights : List ℝ
  bias : ℝ
  m : MetricsOut

/-- The terminal failures of the training runs: `SystemExit` on too few samples
(ai_train.py lines 336-339, ai_power_train.py lines 245-246) and the raised
`ValueError` of `invert_matrix`. -/
inductive TrainError
  | insufficientData
  | singular

/-- The algorithmic core of ai_train.py `main` (lines 317-378) after the
dataset `x, y` and the shuffled index list `idx` are assembled: abort when
fewer than 200 transition samples exist, otherwise split 80/20, fit on the
training part, predict the held-out part and package the artifact. -/
noncomputable def train_main (x : List (List ℝ)) (y : List ℝ) (l2 : ℝ)
    (idx : List ℕ) : Except TrainError Artifact :=
  if x.length < 200 then Except.error TrainError.insufficientData
  else
    let tr_idx := (train_test_split idx).1
    let te_idx := (train_test_split idx).2
    let x_tr := tr_idx.map (fun i => x.getD i [])
    let y_tr := tr_idx.map (fun i => y.getD i 0)
    let x_te := te_idx.map (fun i => x.getD i [])
    let y_te := te_idx.map (fun i => y.getD i 0)
    match ridge_fit x_tr y_tr l2 with
    | Except.error _ => Except.error TrainError.singular
    | Except.ok (w, bias, means, stds) =>
      let preds := x_te.map (fun row => predict_row row w bias means stds)
      Except.ok ⟨l2, means, stds, w, bias, metrics y_te preds⟩

end Train

namespace Power

/-- Fields of the `Customer` dataclass of ai_power_train.py (lines 16-24) used
by `target_ideal_kva` and the feature assembly of `main`. -/
structure Customer where
  segment : String
  contracted_power_kva : ℝ
  home_area_m2 : ℝ
  household_size : ℤ
  has_solar : ℤ
  ev_count : ℤ

/-- ai_power_train.py lines 136-147 (`metrics`).  Line 145 is
`r2 = 1.0 - (ss_res / ss_tot) if ss_tot > 1e-12 else 0.0`: the conditional
covers the whole expression, so the degenerate case yields `0.0`. -/
noncomputable def metrics (y_true y_pred : List ℝ) : MetricsOut :=
  let n : ℝ := y_true.length
  let mae := (List.zipWith (fun a b => |a - b|) y_true y_pred).sum / n
  let mse := (List.zipWith (fun a b => (a - b) ^ 2) y_true y_pred).sum / n
  let rmse := Real.sqrt mse
  let y_mean := y_true.sum / n
  let ss_tot := (y_true.map (fun v => (v - y_mean) ^ 2)).sum
  let ss_res := (List.zipWith (fun a b => (a - b) ^ 2) y_true y_pred).sum
  let r2 := if ss_tot > 1e-12 then 1 - ss_res / ss_tot else 0
  ⟨mae, rmse, r2⟩

/-- The segment-dependent safety margin of ai_power_train.py line 199:
`0.15 if industrial else 0.10 if sme else 0.08`. -/
def segMargin (c : Customer) : ℝ :=
  if c.segment = "industrial" then 0.15 else if c.segment = "sme" then 0.10 else 0.08

/-- ai_power_train.py lines 194-204 (`target_ideal_kva`): peak and average terms
(each replaced by `1.0` when the statistic is not positive), maximum inflated
by the segment margin, rounded up to the next 0.1 kVA and clamped to `[1, 60]`. -/
noncomputable def target_ideal_kva (c : Customer) (peak_watts_30d avg_watts_30d : ℝ) : ℝ :=
  let peak_kva := if peak_watts_30d > 0 then peak_watts_30d / 1000 / 0.85 else 1
  let avg_kva := if avg_watts_30d > 0 then avg_watts_30d / 1000 * 2.2 else 1
  let base := max peak_kva avg_kva * (1 + segMargin c)
  let kva := (Int.ceil (base * 10) : ℝ) / 10
  min 60 (max 1 kva)

/-- The spec's formula for the ideal-power target (§4.5 / Scenario C), which
has no replacement of zero statistics:
`clamp(ceil(max(peak/1000/0.85, avg/1000*2.2) * (1+margin) * 10)/10, 1, 60)`. -/
noncomputable def spec_ideal_kva (c : Customer) (peak_watts_30d avg_watts_30d : ℝ) : ℝ :=
  let base := max (peak_watts_30d / 1000 / 0.85) (avg_watts_30d / 1000 * 2.2) * (1 + segMargin c)
  min 60 (max 1 ((Int.ceil (base * 10) : ℝ) / 10))

/-- The feature row assembled in ai_power_train.py lines 230-241. -/
noncomputable def features (c : Customer) (peak30 avg30 : ℝ) : List ℝ :=
  [c.contracted_power_kva, peak30, avg30, c.home_area_m2, (c.household_size : ℝ),
   (c.has_solar : ℝ), (c.ev_count : ℝ),
   if c.segment = "residential" then 1 else 0,
   if c.segment = "sme" then 1 else 0,
   if c.segment = "industrial" then 1 else 0]

/-- Indices of the samples the power pipeline fits on (ai_power_train.py
line 249: `ridge_fit(x, y, l2)` over the full assembled dataset). -/
def fit_indices (n : ℕ) : List ℕ := List.range n

/-- Indices of the samples the power pipeline evaluates on (ai_power_train.py
lines 251-252: `preds = [predict_row(row, ...) for row in x]` followed by
`metrics(y, preds)` — every sample, not a held-out subset). -/
def eval_indices (n : ℕ) : List ℕ := List.range n

/-- The algorithmic core of ai_power_train.py `main` (lines 207-272) after the
per-customer samples `(customer, peak30, avg30)` are assembled: abort when
fewer than 10 customers have telemetry, otherwise fit on all samples, predict
all samples and package the artifact. -/
noncomputable def power_main (samples : List (Customer × ℝ × ℝ)) (l2 : ℝ) :
    Except Train.TrainError Train.Artifact :=
  let x := samples.map (fun s => features s.1 s.2.1 s.2.2)
  let y := samples.map (fun s => target_ideal_kva s.1 s.2.1 s.2.2)
  if x.length < 10 then Except.error Train.TrainError.insufficientData
  else
    match ridge_fit x y l2 with
    | Except.error _ => Except.error Train.TrainError.singular
    | Except.ok (w, b, means, stds) =>
      let preds := x.map (fun row => predict_row row w b means stds)
      Except.ok ⟨l2, means, stds, w, b, metrics y preds⟩

end Power

/-
Helper lemmas about the simulation engine.
-/

lemma Gen.finalWatts_bounds {w cap amt : ℝ} (hit : Prop) [Decidable hit]
    (hcap : (40 : ℝ) ≤ cap) (hamt : 0 ≤ amt) :
    40 ≤ Gen.finalWatts w cap hit amt ∧ Gen.finalWatts w cap hit amt ≤ cap := by
  unfold Gen.finalWatts
  have h1 : (40 : ℝ) ≤ max 40 (min w cap) := le_max_left _ _
  have h2 : max 40 (min w cap) ≤ cap := max_le hcap (min_le_right _ _)
  split_ifs with h
  · exact ⟨le_min hcap (by linarith), min_le_left _ _⟩
  · exact ⟨h1, h2⟩

lemma Gen.simulate_watts_bounds (ts : Gen.Ts) (c : Gen.Customer) (last : Option ℝ)
    (d : Gen.Draws) (hamt : 0 ≤ d.spikeAmt)
    (hcap : (40 : ℝ) ≤ c.contracted_power_kva * 1000 * 0.92) :
    40 ≤ (Gen.simulate_watts ts c last d).1 ∧
      (Gen.simulate_watts ts c last d).1 ≤ c.contracted_power_kva * 1000 * 0.92 := by
  show 40 ≤ Gen.finalWatts _ _ _ _ ∧ Gen.finalWatts _ _ _ _ ≤ _
  exact Gen.finalWatts_bounds _ hcap hamt

lemma Gen.simulate_euros_eq (ts : Gen.Ts) (c : Gen.Customer) (last : Option ℝ)
    (d : Gen.Draws) :
    (Gen.simulate_watts ts c last d).2.2 =
      (Gen.simulate_watts ts c last d).1 / 1000 * RATE_EUR_PER_KWH * INTERVAL_HOURS := rfl

lemma Gen.simulate_temp_eq (ts : Gen.Ts) (c : Gen.Customer) (last : Option ℝ)
    (d : Gen.Draws) :
    (Gen.simulate_watts ts c last d).2.1 =
      Gen.seasonal_temperature ts.dayOfYear c.city + d.tempNoise := rfl

/-
Claim C1 — the spec says the stored cost uses the generating profile's unit
price; the code uses the module constant RATE_EUR_PER_KWH = 0.20 for every
customer regardless of the profile field.
-/

/-- C1 (counterexample): for a residential customer whose profile unit price is
0.45 €/kWh, the cost produced by `simulate_watts` differs from
`(watts/1000) × 0.45 × 0.25`, so the cost does not use the profile's unit
price. -/
theorem c1_cost_counterexample :
    (Gen.simulate_watts ⟨12, 2, 100⟩
        ⟨"residential", "Maia", 3.45, 0.45, 80, 2, 0, 0⟩ none ⟨0, 1, 0, 1, 800⟩).2.2 ≠
      (Gen.simulate_watts ⟨12, 2, 100⟩
        ⟨"residential", "Maia", 3.45, 0.45, 80, 2, 0, 0⟩ none ⟨0, 1, 0, 1, 800⟩).1 / 1000 *
        (0.45 : ℝ) * 0.25 := by
  have hb := Gen.simulate_watts_bounds ⟨12, 2, 100⟩
    ⟨"residential", "Maia", 3.45, 0.45, 80, 2, 0, 0⟩ none ⟨0, 1, 0, 1, 800⟩
    (by norm_num) (by norm_num)
  have he := Gen.simulate_euros_eq ⟨12, 2, 100⟩
    ⟨"residential", "Maia", 3.45, 0.45, 80, 2, 0, 0⟩ none ⟨0, 1, 0, 1, 800⟩
  rw [he]
  have h40 := hb.1
  rw [RATE_EUR_PER_KWH, INTERVAL_HOURS, INTERVAL_MINUTES]
  intro hcontra
  nlinarith [h40]

/-- C1 (amended): every reading's cost equals
`(watts/1000) × RATE_EUR_PER_KWH × INTERVAL_HOURS` where `RATE_EUR_PER_KWH`
is the fixed module constant 0.20 €/kWh and `INTERVAL_HOURS = 0.25`; the
customer profile's unit price field is not consulted. -/
theorem c1_cost_uses_fixed_rate (ts : Gen.Ts) (c : Gen.Customer) (last : Option ℝ)
    (d : Gen.Draws) :
    (Gen.simulate_watts ts c last d).2.2 =
      (Gen.simulate_watts ts c last d).1 / 1000 * RATE_EUR_PER_KWH * INTERVAL_HOURS ∧
      RATE_EUR_PER_KWH = 0.20 ∧ INTERVAL_HOURS = 0.25 := by
  refine ⟨Gen.simulate_euros_eq ts c last d, rfl, ?_⟩
  rw [INTERVAL_HOURS, INTERVAL_MINUTES]
  norm_num

/-
Claim C4 — bounds of the generated watts.
-/

/-- C4: for every timestamp, customer profile (with a contracted power from the
population's tiers, all at least 3.45 kVA), previous-watts value and random
draws (the spike size coming from `uniform(800, 2200)`), the watts value
returned by `simulate_watts` — spike included — satisfies
`40 ≤ watts ≤ 0.92 × contracted_power_kVA × 1000`. -/
theorem c4_watts_bounds (ts : Gen.Ts) (c : Gen.Customer) (last : Option ℝ)
    (d : Gen.Draws) (hamt : 800 ≤ d.spikeAmt) (hkva : 3.45 ≤ c.contracted_power_kva) :
    40 ≤ (Gen.simulate_watts ts c last d).1 ∧
      (Gen.simulate_watts ts c last d).1 ≤ 0.92 * (c.contracted_power_kva * 1000) := by
  have hcap : (40 : ℝ) ≤ c.contracted_power_kva * 1000 * 0.92 := by nlinarith
  have h := Gen.simulate_watts_bounds ts c last d (by linarith) hcap
  exact ⟨h.1, by linarith [h.2]⟩

/-- Witness for C4 at a concrete reading. -/
theorem c4_watts_bounds_witness :
    (800 : ℝ) ≤ 800 ∧ (3.45 : ℝ) ≤ 3.45 ∧
      (40 ≤ (Gen.simulate_watts ⟨20.5, 6, 300⟩
          ⟨"residential", "Porto", 3.45, 0.20, 95, 3, 1, 1⟩ (some 500) ⟨1, 0, -50, 0, 800⟩).1 ∧
        (Gen.simulate_watts ⟨20.5, 6, 300⟩
          ⟨"residential", "Porto", 3.45, 0.20, 95, 3, 1, 1⟩ (some 500) ⟨1, 0, -50, 0, 800⟩).1 ≤
          0.92 * ((3.45 : ℝ) * 1000)) := by
  refine ⟨by norm_num, by norm_num, ?_⟩
  exact c4_watts_bounds ⟨20.5, 6, 300⟩
    ⟨"residential", "Porto", 3.45, 0.20, 95, 3, 1, 1⟩ (some 500) ⟨1, 0, -50, 0, 800⟩
    (by norm_num) (by norm_num)

/-
Claim C6 — the seasonal sinusoid.  The formula matches the code, but
`16 + 7·sin(2π(d-170)/365)` has value 16 (the midline) at day 170 and attains
its maximum a quarter period later, near day 261 — not "near day 170".
-/

lemma Gen.seasonal_temperature_at_170 (city : String) :
    Gen.seasonal_temperature 170 city =
      16 + (if city ∈ Gen.coastalCities then (-1 : ℝ) else 0) := by
  unfold Gen.seasonal_temperature
  norm_num

lemma Gen.seasonal_temperature_170_lt_261 (city : String) :
    Gen.seasonal_temperature 170 city < Gen.seasonal_temperature 261 city := by
  unfold Gen.seasonal_temperature
  have harg : (2 : ℝ) * Real.pi * (((261 : ℕ) : ℝ) - 170) / 365 =
      Real.pi * (182 / 365) := by push_cast; ring
  have h0 : Real.sin (2 * Real.pi * (((170 : ℕ) : ℝ) - 170) / 365) = 0 := by
    norm_num
  have hpos : 0 < Real.sin (2 * Real.pi * (((261 : ℕ) : ℝ) - 170) / 365) := by
    rw [harg]
    apply Real.sin_pos_of_pos_of_lt_pi
    · positivity
    · nlinarith [Real.pi_pos]
  rw [h0]
  nlinarith [hpos]

/-- C6 (counterexample): at day 170 the deterministic seasonal temperature sits
at the 16 °C midline and is strictly below its value at day 261, so the
sinusoid does not peak near day 170. -/
theorem c6_seasonal_counterexample :
    Gen.seasonal_temperature 170 "Maia" = 16 ∧
      Gen.seasonal_temperature 170 "Maia" < Gen.seasonal_temperature 261 "Maia" := by
  constructor
  · rw [Gen.seasonal_temperature_at_170, if_neg (by decide)]
    norm_num
  · exact Gen.seasonal_temperature_170_lt_261 "Maia"

/-- C6 (amended): the deterministic part of the simulated ambient temperature
is `16 + 7·sin(2π(day_of_year − 170)/365)` plus a fixed −1 °C offset for the
coastal cities Porto, Matosinhos, Vila Nova de Gaia and Aveiro, before
Gaussian noise is added; the phase shift places day 170 at the rising 16 °C
midline crossing (not at the peak), with the sinusoid peaking a quarter period
later, near day 261. -/
theorem c6_seasonal_amended :
    (∀ (ts : Gen.Ts) (c : Gen.Customer) (last : Option ℝ) (d : Gen.Draws),
        (Gen.simulate_watts ts c last d).2.1 =
          Gen.seasonal_temperature ts.dayOfYear c.city + d.tempNoise) ∧
      (∀ (day : ℕ) (city : String),
        Gen.seasonal_temperature day city =
          16 + 7 * Real.sin (2 * Real.pi * ((day : ℝ) - 170) / 365) +
            (if city ∈ Gen.coastalCities then (-1 : ℝ) else 0)) ∧
      (∀ city : String,
        Gen.seasonal_temperature 170 city =
          16 + (if city ∈ Gen.coastalCities then (-1 : ℝ) else 0)) ∧
      (∀ city : String,
        Gen.seasonal_temperature 170 city < Gen.seasonal_temperature 261 city) := by
  exact ⟨fun ts c last d => Gen.simulate_temp_eq ts c last d,
    fun day city => rfl,
    Gen.seasonal_temperature_at_170,
    Gen.seasonal_temperature_170_lt_261⟩

/-
Claim C2 — the R² degenerate case.  ai_power_train.py's metrics returns 0 when
SS_tot ≤ 1e-12, but ai_train.py's metrics parenthesizes differently
(`1.0 - (ss_res / ss_tot if ss_tot > 1e-12 else 0.0)`) and returns 1.
-/

/-- C2 (counterexample): on the constant target `y_true = [5, 5]` (so
`SS_tot = 0 ≤ 1e-12`) with predictions `[7, 9]`, the next-step pipeline's
`metrics` reports `R² = 1`, not `0` as the claim states. -/
theorem c2_degenerate_r2_counterexample :
    ssTot [(5 : ℝ), 5] ≤ 1e-12 ∧
      (Train.metrics [(5 : ℝ), 5] [(7 : ℝ), 9]).r2 = 1 ∧ (1 : ℝ) ≠ 0 := by
  refine ⟨?_, ?_, by norm_num⟩
  · unfold ssTot
    norm_num
  · unfold Train.metrics
    norm_num

/-- C2 (amended): both `metrics` guard on `SS_tot > 1e-12`, but only the
power-sizing pipeline defines `R² := 0` in the degenerate case; the next-step
pipeline's conditional replaces only the ratio, so it reports
`R² = 1 − 0 = 1` there.  In the non-degenerate case both return
`1 − SS_res/SS_tot`. -/
theorem c2_r2_definitions (y p : List ℝ) (hlen : y.length = p.length) (hne : y ≠ []) :
    (Power.metrics y p).r2 = (if ssTot y > 1e-12 then 1 - ssRes y p / ssTot y else 0) ∧
      (Train.metrics y p).r2 = 1 - (if ssTot y > 1e-12 then ssRes y p / ssTot y else 0) :=
  ⟨rfl, rfl⟩

/-- Witness for C2 (amended) on a concrete evaluation pair. -/
theorem c2_r2_definitions_witness :
    ([(1 : ℝ), 2].length = [(1 : ℝ), 2].length ∧ [(1 : ℝ), 2] ≠ []) ∧
      ((Power.metrics [(1 : ℝ), 2] [(1 : ℝ), 2]).r2 =
          (if ssTot [(1 : ℝ), 2] > 1e-12 then
            1 - ssRes [(1 : ℝ), 2] [(1 : ℝ), 2] / ssTot [(1 : ℝ), 2] else 0) ∧
        (Train.metrics [(1 : ℝ), 2] [(1 : ℝ), 2]).r2 =
          1 - (if ssTot [(1 : ℝ), 2] > 1e-12 then
            ssRes [(1 : ℝ), 2] [(1 : ℝ), 2] / ssTot [(1 : ℝ), 2] else 0)) :=
  ⟨⟨rfl, by simp⟩, c2_r2_definitions [(1 : ℝ), 2] [(1 : ℝ), 2] rfl (by simp)⟩

/-
Claim C3 — train/test split.  The next-step pipeline does shuffle and split
80/20 with a held-out remainder; the power-sizing pipeline has no split at all:
it fits on every sample and computes its metrics on the same samples.
-/

/-- C3 (counterexample): with 10 samples (the power pipeline's minimum), the
set of samples the power-sizing pipeline evaluates on is identical to — hence
not disjoint from — the set it fits on. -/
theorem c3_power_no_holdout_counterexample :
    Power.eval_indices 10 = Power.fit_indices 10 ∧
      ¬ List.Disjoint (Power.fit_indices 10) (Power.eval_indices 10) :=
  ⟨rfl, fun h => h (a := 0) (by decide) (by decide)⟩

/-- C3 (amended): the next-step pipeline shuffles the sample indices with a
seeded pseudo-random generator and keeps the first `⌊0.8·n⌋` for fitting and
the disjoint remainder for evaluation (train and test concatenate back to the
shuffled list); the power-sizing pipeline performs no split — it fits on all
samples and computes its reported metrics on those same samples. -/
theorem c3_split_behaviour (n : ℕ) (idx : List ℕ) (hperm : idx.Perm (List.range n)) :
    ((Train.train_test_split idx).1 ++ (Train.train_test_split idx).2 = idx ∧
      (Train.train_test_split idx).1.length = 4 * n / 5 ∧
      List.Disjoint (Train.train_test_split idx).1 (Train.train_test_split idx).2) ∧
      Power.eval_indices n = Power.fit_indices n := by
  have hlen : idx.length = n := by
    simpa using hperm.length_eq
  have hnd : idx.Nodup := hperm.nodup_iff.mpr (List.nodup_range n)
  refine ⟨⟨List.take_append_drop _ idx, ?_, ?_⟩, rfl⟩
  · unfold Train.train_test_split
    simp only [List.length_take, hlen]
    omega
  · exact List.disjoint_take_drop hnd (le_refl _)

/-- Witness for C3 (amended) on a concrete shuffled index list. -/
theorem c3_split_behaviour_witness :
    [2, 0, 4, 1, 3].Perm (List.range 5) ∧
      (((Train.train_test_split [2, 0, 4, 1, 3]).1 ++
          (Train.train_test_split [2, 0, 4, 1, 3]).2 = [2, 0, 4, 1, 3] ∧
        (Train.train_test_split [2, 0, 4, 1, 3]).1.length = 4 * 5 / 5 ∧
        List.Disjoint (Train.train_test_split [2, 0, 4, 1, 3]).1
          (Train.train_test_split [2, 0, 4, 1, 3]).2) ∧
        Power.eval_indices 5 = Power.fit_indices 5) :=
  ⟨by decide, c3_split_behaviour 5 [2, 0, 4, 1, 3] (by decide)⟩

/-
Claim C9 — minimum-sample guards of the two mains.
-/

/-- C9: the next-step pipeline terminates with the insufficient-data error —
producing no artifact — whenever fewer than 200 transition samples are
available, and the power-sizing pipeline does the same with fewer than 10
customers with telemetry history. -/
theorem c9_min_sample_guards :
    (∀ (x : List (List ℝ)) (y : List ℝ) (l2 : ℝ) (idx : List ℕ),
        x.length < 200 →
          Train.train_main x y l2 idx = Except.error Train.TrainError.insufficientData) ∧
      (∀ (samples : List (Power.Customer × ℝ × ℝ)) (l2 : ℝ),
        samples.length < 10 →
          Power.power_main samples l2 = Except.error Train.TrainError.insufficientData) := by
  constructor
  · intro x y l2 idx h
    unfold Train.train_main
    rw [if_pos h]
  · intro samples l2 h
    unfold Power.power_main
    rw [if_pos (by simpa using h)]

/-- Witness for C9 on empty datasets. -/
theorem c9_min_sample_guards_witness :
    (([] : List (List ℝ)).length < 200 ∧
        Train.train_main [] [] 0 [] = Except.error Train.TrainError.insufficientData) ∧
      (([] : List (Power.Customer × ℝ × ℝ)).length < 10 ∧
        Power.power_main [] 0 = Except.error Train.TrainError.insufficientData) :=
  ⟨⟨by decide, c9_min_sample_guards.1 [] [] 0 [] (by decide)⟩,
    ⟨by decide, c9_min_sample_guards.2 [] 0 (by decide)⟩⟩

/-
Claims C5 and C10 — the ideal-power target.
-/

lemma clampEval {x : ℝ} (h1 : 1 ≤ x) (h2 : x ≤ 60) : min 60 (max 1 x) = x := by
  rw [max_eq_right h1, min_eq_right h2]

/-- C5 (counterexample): for a residential customer with an empty 30-day
window (`peak = avg = 0`), the code's target is 1.1 kVA (the 1.0 kVA baseline
inflated by 8% and rounded up), while the claim's formula — the clamp applied
to the zero-valued expression — gives 1.0 kVA. -/
theorem c5_ideal_power_counterexample :
    Power.target_ideal_kva ⟨"residential", 3.45, 80, 2, 0, 0⟩ 0 0 = 11 / 10 ∧
      Power.spec_ideal_kva ⟨"residential", 3.45, 80, 2, 0, 0⟩ 0 0 = 1 ∧
      Power.target_ideal_kva ⟨"residential", 3.45, 80, 2, 0, 0⟩ 0 0 ≠
        Power.spec_ideal_kva ⟨"residential", 3.45, 80, 2, 0, 0⟩ 0 0 := by
  have hseg : Power.segMargin ⟨"residential", 3.45, 80, 2, 0, 0⟩ = 0.08 := by
    unfold Power.segMargin
    rw [if_neg (by decide), if_neg (by decide)]
  have ht : Power.target_ideal_kva ⟨"residential", 3.45, 80, 2, 0, 0⟩ 0 0 = 11 / 10 := by
    unfold Power.target_ideal_kva
    rw [hseg, if_neg (by norm_num), if_neg (by norm_num)]
    simp only []
    rw [max_self, one_mul]
    rw [show ((1 : ℝ) + 0.08) * 10 = 10.8 by norm_num]
    rw [show Int.ceil ((10.8 : ℝ)) = 11 by rw [Int.ceil_eq_iff] <;> norm_num]
    rw [show (((11 : ℤ) : ℝ)) / 10 = 11 / 10 by norm_num]
    exact clampEval (by norm_num) (by norm_num)
  have hs : Power.spec_ideal_kva ⟨"residential", 3.45, 80, 2, 0, 0⟩ 0 0 = 1 := by
    unfold Power.spec_ideal_kva
    rw [hseg]
    simp only []
    rw [show max ((0 : ℝ) / 1000 / 0.85) ((0 : ℝ) / 1000 * 2.2) * (1 + 0.08) = 0 by norm_num]
    rw [show ((0 : ℝ)) * 10 = 0 by norm_num]
    rw [show Int.ceil ((0 : ℝ)) = 0 from Int.ceil_zero]
    norm_num
  exact ⟨ht, hs, by rw [ht, hs]; norm_num⟩

/-- C5 (amended): whenever both 30-day statistics are positive, the synthesized
ideal-power target equals the spec's formula
`clamp(ceil(max(peak/1000/0.85, avg/1000·2.2) · (1+margin) · 10)/10, 1, 60)`
with margin 8% (residential) / 10% (sme) / 15% (industrial); a non-positive
statistic is instead replaced by a 1.0 kVA baseline before the max-and-margin
step. -/
theorem c5_ideal_power_formula (c : Power.Customer) (peak avg : ℝ)
    (hp : 0 < peak) (ha : 0 < avg) :
    Power.target_ideal_kva c peak avg = Power.spec_ideal_kva c peak avg := by
  unfold Power.target_ideal_kva Power.spec_ideal_kva
  rw [if_pos hp, if_pos ha]

/-- Witness for C5 (amended): scenario C's inputs (peak 5000 W, avg 1200 W). -/
theorem c5_ideal_power_formula_witness :
    (0 : ℝ) < 5000 ∧ (0 : ℝ) < 1200 ∧
      Power.target_ideal_kva ⟨"residential", 6.9, 95, 3, 0, 0⟩ 5000 1200 =
        Power.spec_ideal_kva ⟨"residential", 6.9, 95, 3, 0, 0⟩ 5000 1200 :=
  ⟨by norm_num, by norm_num,
    c5_ideal_power_formula ⟨"residential", 6.9, 95, 3, 0, 0⟩ 5000 1200
      (by norm_num) (by norm_num)⟩

/-- C10: when both 30-day statistics are non-positive, each term is replaced by
the 1.0 kVA baseline, so the target is `ceil((1 + margin)·10)/10` — for a
residential profile 1.1 kVA — rather than the `[1, 60]` clamp of a zero-valued
formula. -/
theorem c10_zero_stats_baseline (c : Power.Customer) (peak avg : ℝ)
    (hp : peak ≤ 0) (ha : avg ≤ 0) :
    Power.target_ideal_kva c peak avg = (Int.ceil ((1 + Power.segMargin c) * 10) : ℝ) / 10 ∧
      (c.segment = "residential" → Power.target_ideal_kva c peak avg = 1.1) := by
  have hmain : Power.target_ideal_kva c peak avg =
      (Int.ceil ((1 + Power.segMargin c) * 10) : ℝ) / 10 := by
    unfold Power.target_ideal_kva
    rw [if_neg (not_lt.mpr hp), if_neg (not_lt.mpr ha)]
    simp only []
    rw [max_self, one_mul]
    unfold Power.segMargin
    split_ifs with h1 h2
    · rw [show ((1 : ℝ) + 0.15) * 10 = 11.5 by norm_num]
      rw [show Int.ceil ((11.5 : ℝ)) = 12 by rw [Int.ceil_eq_iff] <;> norm_num]
      exact clampEval (by norm_num) (by norm_num)
    · rw [show ((1 : ℝ) + 0.10) * 10 = 11 by norm_num]
      rw [show Int.ceil ((11 : ℝ)) = 11 by rw [Int.ceil_eq_iff] <;> norm_num]
      exact clampEval (by norm_num) (by norm_num)
    · rw [show ((1 : ℝ) + 0.08) * 10 = 10.8 by norm_num]
      rw [show Int.ceil ((10.8 : ℝ)) = 11 by rw [Int.ceil_eq_iff] <;> norm_num]
      exact clampEval (by norm_num) (by norm_num)
  refine ⟨hmain, fun hres => ?_⟩
  rw [hmain]
  have hseg : Power.segMargin c = 0.08 := by
    unfold Power.segMargin
    rw [hres]
    rw [if_neg (by decide), if_neg (by decide)]
  rw [hseg]
  rw [show ((1 : ℝ) + 0.08) * 10 = 10.8 by norm_num]
  rw [show Int.ceil ((10.8 : ℝ)) = 11 by rw [Int.ceil_eq_iff] <;> norm_num]
  norm_num

/-- Witness for C10 on a residential profile with an empty 30-day window. -/
theorem c10_zero_stats_baseline_witness :
    (0 : ℝ) ≤ 0 ∧
      (Power.target_ideal_kva ⟨"residential", 3.45, 80, 2, 0, 0⟩ 0 0 =
          (Int.ceil ((1 + Power.segMargin ⟨"residential", 3.45, 80, 2, 0, 0⟩) * 10) : ℝ) / 10 ∧
        (Power.Customer.segment ⟨"residential", 3.45, 80, 2, 0, 0⟩ = "residential" →
          Power.target_ideal_kva ⟨"residential", 3.45, 80, 2, 0, 0⟩ 0 0 = 1.1)) :=
  ⟨le_refl 0,
    c10_zero_stats_baseline ⟨"residential", 3.45, 80, 2, 0, 0⟩ 0 0 (le_refl 0) (le_refl 0)⟩

/-
Claim C7 — Gauss-Jordan singularity behaviour.
-/

lemma singularEps_eq : singularEps = 1e-12 := rfl

lemma gjStage_succ (a : List (List α)) (k : ℕ) :
    gjStage a (k + 1) =
      match gjStage a k with
      | Except.error e => Except.error e
      | Except.ok aug => gjStep aug k a.length := rfl

lemma pivotFoldl_abs (aug : List (List α)) (col : ℕ) (L : List ℕ) (p : ℕ) :
    |entry aug (L.foldl (fun p r => if |entry aug r col| > |entry aug p col| then r else p) p) col| =
      L.foldl (fun m r => max m |entry aug r col|) |entry aug p col| := by
  induction L generalizing p with
  | nil => rfl
  | cons r L ih =>
    simp only [List.foldl_cons]
    rw [ih]
    congr 1
    by_cases h : |entry aug r col| > |entry aug p col|
    · rw [if_pos h, max_eq_right (le_of_lt h)]
    · rw [if_neg h, max_eq_left (not_lt.mp h)]

lemma pivotVal_eq_maxAbsBelow (aug : List (List α)) (col n : ℕ) (h : col < n) :
    |entry aug (pivotSearch aug col n) col| = maxAbsBelow aug col n := by
  unfold pivotSearch maxAbsBelow
  have hn : n - col = (n - (col + 1)) + 1 := by omega
  rw [hn, List.range'_succ]
  rw [List.foldl_cons, max_eq_right (abs_nonneg _)]
  exact pivotFoldl_abs aug col _ col

lemma gjStage_error_mono (a : List (List α)) {k k' : ℕ} (hkk : k ≤ k')
    (h : gjStage a k = Except.error ()) : gjStage a k' = Except.error () := by
  induction k' with
  | zero =>
    have hk0 : k = 0 := by omega
    exact hk0 ▸ h
  | succ k' ih =>
    by_cases hk : k = k' + 1
    · exact hk ▸ h
    · have h' : gjStage a k' = Except.error () := ih (by omega)
      rw [gjStage_succ, h']

lemma gjStage_error_iff (a : List (List α)) (k : ℕ) :
    gjStage a k = Except.error () ↔
      ∃ col < k, ∃ aug, gjStage a col = Except.ok aug ∧
        |entry aug (pivotSearch aug col a.length) col| < (singularEps : α) := by
  induction k with
  | zero =>
    constructor
    · intro h
      exact absurd h (by simp [gjStage])
    · rintro ⟨col, hcol, -⟩
      omega
  | succ k ih =>
    constructor
    · intro h
      rw [gjStage_succ] at h
      cases hk : gjStage a k with
      | error e =>
        cases e
        obtain ⟨col, hcol, aug, hok, hlt⟩ := ih.mp hk
        exact ⟨col, by omega, aug, hok, hlt⟩
      | ok aug =>
        rw [hk] at h
        by_cases hc : |entry aug (pivotSearch aug k a.length) k| < (singularEps : α)
        · exact ⟨k, by omega, aug, hk, hc⟩
        · exfalso
          have hstep : gjStep aug k a.length = Except.error () := h
          unfold gjStep at hstep
          rw [if_neg hc] at hstep
          exact absurd hstep (by simp)
    · rintro ⟨col, hcol, aug, hok, hlt⟩
      by_cases hck : col = k
      · subst hck
        rw [gjStage_succ, hok]
        show gjStep aug col a.length = Except.error ()
        unfold gjStep
        rw [if_pos hlt]
      · have herr : gjStage a k = Except.error () :=
          ih.mpr ⟨col, by omega, aug, hok, hlt⟩
        rw [gjStage_succ, herr]

/-- The all-zero-column invariant: every row of the (augmented) matrix has a
zero in column `j`. -/
def zeroColInv (j : ℕ) (aug : List (List α)) : Prop := ∀ row ∈ aug, row.getD j 0 = 0

lemma zeroColInv_getD {j : ℕ} {aug : List (List α)} (h : zeroColInv j aug) (i : ℕ) :
    (aug.getD i []).getD j 0 = 0 := by
  by_cases hi : i < aug.length
  · rw [List.getD_eq_getElem aug [] hi]
    exact h _ (List.getElem_mem hi)
  · rw [List.getD_eq_default aug [] (by omega)]
    rfl

lemma getD_map_zero {f : α → α} (hf : f 0 = 0) (l : List α) (j : ℕ) :
    (l.map f).getD j 0 = f (l.getD j 0) := by
  by_cases hj : j < l.length
  · rw [List.getD_eq_getElem _ _ (by simpa using hj), List.getD_eq_getElem _ _ hj,
      List.getElem_map]
  · rw [List.getD_eq_default _ _ (by simpa using hj), List.getD_eq_default _ _ (by omega), hf]

lemma getD_zipWith_zero {g : α → α → α} (hg : g 0 0 = 0) {l1 l2 : List α} {j : ℕ}
    (h1 : l1.getD j 0 = 0) (h2 : l2.getD j 0 = 0) :
    (List.zipWith g l1 l2).getD j 0 = 0 := by
  by_cases hj : j < (List.zipWith g l1 l2).length
  · have hmin : j < l1.length ∧ j < l2.length := by
      rw [List.length_zipWith] at hj
      omega
    rw [List.getD_eq_getElem _ _ hj, List.getElem_zipWith,
      ← List.getD_eq_getElem l1 0 hmin.1, ← List.getD_eq_getElem l2 0 hmin.2, h1, h2, hg]
  · rw [List.getD_eq_default _ _ (by omega)]

lemma zeroColInv_set {j : ℕ} {aug : List (List α)} (h : zeroColInv j aug)
    {row : List α} (hrow : row.getD j 0 = 0) (i : ℕ) : zeroColInv j (aug.set i row) := by
  intro r hr
  rcases List.mem_or_eq_of_mem_set hr with hmem | rfl
  · exact h r hmem
  · exact hrow

lemma zeroColInv_swapRows {j : ℕ} {aug : List (List α)} (h : zeroColInv j aug) (i k : ℕ) :
    zeroColInv j (swapRows aug i k) := by
  unfold swapRows
  exact zeroColInv_set (zeroColInv_set h (zeroColInv_getD h k) i) (zeroColInv_getD h i) k

lemma zeroColInv_eliminate {j : ℕ} {prow : List α} (hprow : prow.getD j 0 = 0)
    (col n : ℕ) {aug : List (List α)} (h : zeroColInv j aug) :
    zeroColInv j (eliminate aug col n prow) := by
  unfold eliminate
  induction List.range n generalizing aug with
  | nil => exact h
  | cons r L ih =>
    rw [List.foldl_cons]
    apply ih
    simp only []
    split_ifs with h1 h2
    · exact h
    · exact h
    · exact zeroColInv_set h
        (getD_zipWith_zero (by ring) (zeroColInv_getD h r) hprow) r

lemma zeroColInv_gjTransform {j : ℕ} {aug : List (List α)} (h : zeroColInv j aug)
    (col n : ℕ) : zeroColInv j (gjTransform aug col n) := by
  unfold gjTransform
  simp only []
  have h1 : zeroColInv j
      (if pivotSearch aug col n ≠ col then swapRows aug col (pivotSearch aug col n) else aug) := by
    split_ifs with hc
    · exact zeroColInv_swapRows h col _
    · exact h
  generalize (if pivotSearch aug col n ≠ col then swapRows aug col (pivotSearch aug col n)
    else aug) = aug1 at h1 ⊢
  have hprow : ((aug1.getD col []).map (fun x => x * (1 / entry aug1 col col))).getD j 0 = 0 := by
    rw [getD_map_zero (by ring), zeroColInv_getD h1, zero_mul]
  generalize ((aug1.getD col []).map (fun x => x * (1 / entry aug1 col col))) = prow at hprow ⊢
  exact zeroColInv_eliminate hprow col n (zeroColInv_set h1 hprow col)

lemma zeroColInv_augmentInit {a : List (List α)} {j : ℕ}
    (hsq : ∀ row ∈ a, row.length = a.length) (hj : j < a.length)
    (hz : ∀ row ∈ a, row.getD j 0 = 0) : zeroColInv j (augmentInit a) := by
  intro row hrow
  unfold augmentInit at hrow
  rw [List.mem_iff_getElem] at hrow
  obtain ⟨i, hi, hrow⟩ := hrow
  rw [List.getElem_zipWith] at hrow
  subst hrow
  have hia : i < a.length := by
    rw [List.length_zipWith] at hi
    omega
  have hlen : (a[i]).length = a.length := hsq _ (List.getElem_mem hia)
  rw [List.getD_append _ _ _ _ (by omega)]
  exact hz _ (List.getElem_mem hia)

lemma gjStage_zeroColInv (a : List (List α)) {j : ℕ}
    (h0 : zeroColInv j (augmentInit a)) (k : ℕ) :
    gjStage a k = Except.error () ∨
      ∃ aug, gjStage a k = Except.ok aug ∧ zeroColInv j aug := by
  induction k with
  | zero => exact Or.inr ⟨augmentInit a, rfl, h0⟩
  | succ k ih =>
    rcases ih with herr | ⟨aug, hok, hinv⟩
    · exact Or.inl (gjStage_error_mono a (by omega) herr)
    · rw [gjStage_succ, hok]
      show gjStep aug k a.length = Except.error () ∨
        ∃ aug2, gjStep aug k a.length = Except.ok aug2 ∧ zeroColInv j aug2
      unfold gjStep
      split_ifs with hc
      · exact Or.inl rfl
      · exact Or.inr ⟨gjTransform aug k a.length, rfl, zeroColInv_gjTransform hinv k a.length⟩

lemma maxAbsBelow_of_zeroColInv {j n : ℕ} {aug : List (List α)} (h : zeroColInv j aug) :
    maxAbsBelow aug j n = 0 := by
  unfold maxAbsBelow
  have hz : ∀ r : ℕ, |entry aug r j| = 0 := fun r => by
    rw [show entry aug r j = 0 from zeroColInv_getD h r, abs_zero]
  suffices h' : ∀ L : List ℕ, L.foldl (fun m r => max m |entry aug r j|) 0 = 0 from h' _
  intro L
  induction L with
  | nil => rfl
  | cons r L ih =>
    rw [List.foldl_cons, hz r, max_self]
    exact ih

lemma invert_error_iff (a : List (List α)) :
    invert_matrix a = Except.error () ↔ gjStage a a.length = Except.error () := by
  unfold invert_matrix
  cases h : gjStage a a.length with
  | error e =>
    cases e
    simp [Except.map]
  | ok aug =>
    simp [Except.map]

/-- C7: for every square rational matrix, Gauss-Jordan inversion raises the
singular-matrix error exactly when at some elimination column the largest
absolute value in that column from the current row downward falls below
`1e-12`; in particular a matrix with an all-zero column always raises the
error, and when every elimination column keeps its pivot at or above the
threshold the inversion returns without error. -/
theorem c7_invert_matrix_singularity (a : List (List ℚ))
    (hsq : ∀ row ∈ a, row.length = a.length) :
    (invert_matrix a = Except.error () ↔
      ∃ col < a.length, ∃ aug, gjStage a col = Except.ok aug ∧
        maxAbsBelow aug col a.length < (1e-12 : ℚ)) ∧
      (∀ j < a.length, (∀ row ∈ a, row.getD j 0 = 0) →
        invert_matrix a = Except.error ()) ∧
      ((∀ col < a.length, ∀ aug, gjStage a col = Except.ok aug →
          (1e-12 : ℚ) ≤ maxAbsBelow aug col a.length) →
        ∃ inv, invert_matrix a = Except.ok inv) := by
  have hiff : invert_matrix a = Except.error () ↔
      ∃ col < a.length, ∃ aug, gjStage a col = Except.ok aug ∧
        maxAbsBelow aug col a.length < (1e-12 : ℚ) := by
    rw [invert_error_iff, gjStage_error_iff]
    constructor
    · rintro ⟨col, hcol, aug, hok, hlt⟩
      refine ⟨col, hcol, aug, hok, ?_⟩
      rw [← pivotVal_eq_maxAbsBelow aug col a.length hcol]
      exact hlt
    · rintro ⟨col, hcol, aug, hok, hlt⟩
      refine ⟨col, hcol, aug, hok, ?_⟩
      rw [pivotVal_eq_maxAbsBelow aug col a.length hcol]
      exact hlt
  refine ⟨hiff, ?_, ?_⟩
  · intro j hj hz
    rw [invert_error_iff]
    have h0 := zeroColInv_augmentInit hsq hj hz
    rcases gjStage_zeroColInv a h0 j with herr | ⟨aug, hok, hinv⟩
    · exact gjStage_error_mono a (by omega) herr
    · apply gjStage_error_mono a (show j + 1 ≤ a.length by omega)
      rw [gjStage_succ, hok]
      show gjStep aug j a.length = Except.error ()
      unfold gjStep
      rw [if_pos ?hlt]
      case hlt =>
        rw [show entry aug (pivotSearch aug j a.length) j = 0 from zeroColInv_getD hinv _,
          abs_zero, singularEps_eq]
        norm_num
  · intro hall
    cases hinv : invert_matrix a with
    | ok inv => exact ⟨inv, rfl⟩
    | error e =>
      cases e
      exfalso
      obtain ⟨col, hcol, aug, hok, hlt⟩ := hiff.mp hinv
      exact absurd hlt (not_lt.mpr (hall col hcol aug hok))

/-- Witness for C7 on a concrete 2×2 matrix whose first column is all zero. -/
theorem c7_invert_matrix_singularity_witness :
    (∀ row ∈ [[(0 : ℚ), 1], [0, 2]], row.length = [[(0 : ℚ), 1], [0, 2]].length) ∧
      invert_matrix [[(0 : ℚ), 1], [0, 2]] = Except.error () :=
  ⟨by decide,
    (c7_invert_matrix_singularity [[(0 : ℚ), 1], [0, 2]] (by decide)).2.1 0 (by decide)
      (by decide)⟩

/-
Claim C8 — standardization round-trip.
-/

lemma stdCol_pos (x : List (List ℝ)) (j : ℕ) : 0 < stdCol x j := by
  unfold stdCol
  split_ifs with h
  · linarith [show (0 : ℝ) < 1e-9 by norm_num]
  · norm_num

lemma getD_map_range (f : ℕ → ℝ) {j d : ℕ} (h : j < d) :
    ((List.range d).map f).getD j 0 = f j := by
  rw [List.getD_eq_getElem _ _ (by simpa using h), List.getElem_map, List.getElem_range]

lemma destand_row (x : List (List ℝ)) (d : ℕ) (row : List ℝ) (hrow : row.length = d) :
    (List.range ((List.range d).map
        (fun j => (row.getD j 0 - meanCol x j) / stdCol x j)).length).map
      (fun j => ((List.range d).map
          (fun j => (row.getD j 0 - meanCol x j) / stdCol x j)).getD j 0 *
        ((List.range d).map (stdCol x)).getD j 0 +
        ((List.range d).map (meanCol x)).getD j 0) = row := by
  have hlen : ((List.range d).map
      (fun j => (row.getD j 0 - meanCol x j) / stdCol x j)).length = d := by simp
  rw [hlen]
  apply List.ext_getElem
  · simp [hrow]
  · intro i h1 h2
    have hi : i < d := by simpa using h1
    rw [List.getElem_map, List.getElem_range]
    rw [getD_map_range _ hi, getD_map_range _ hi, getD_map_range _ hi]
    rw [div_mul_cancel₀ _ (ne_of_gt (stdCol_pos x i)), sub_add_cancel,
      List.getD_eq_getElem row 0 h2]

lemma destandardize_standardize (x : List (List ℝ))
    (hrect : ∀ row ∈ x, row.length = x.headI.length) :
    destandardize (standardize x).1 (standardize x).2.1 (standardize x).2.2 = x := by
  unfold destandardize standardize
  simp only []
  apply List.ext_getElem
  · simp
  · intro i h1 h2
    rw [List.getElem_map, List.getElem_map]
    exact destand_row x x.headI.length x[i] (hrect _ (List.getElem_mem h2))

/-- C8: for every non-empty rectangular matrix `X`, `standardize` returns
z-scores, per-column means and per-column (floored) sample standard
deviations such that every returned std is strictly positive and
de-standardizing — multiplying each z-score by its column std and adding the
column mean — recovers `X` exactly, hence within the 1e-9 tolerance. -/
theorem c8_standardize_roundtrip (x : List (List ℝ)) (hne : x ≠ [])
    (hrect : ∀ row ∈ x, row.length = x.headI.length) :
    (∀ s ∈ (standardize x).2.2, 0 < s) ∧
      destandardize (standardize x).1 (standardize x).2.1 (standardize x).2.2 = x ∧
      (∀ i j : ℕ,
        |entry (destandardize (standardize x).1 (standardize x).2.1 (standardize x).2.2) i j -
          entry x i j| ≤ 1e-9) := by
  have hrt := destandardize_standardize x hrect
  refine ⟨?_, hrt, ?_⟩
  · intro s hs
    have : (standardize x).2.2 = (List.range x.headI.length).map (stdCol x) := rfl
    rw [this] at hs
    obtain ⟨j, hj, rfl⟩ := List.mem_map.mp hs
    exact stdCol_pos x j
  · intro i j
    rw [hrt, sub_self, abs_zero]
    norm_num

/-- Witness for C8 on a concrete 2×1 matrix. -/
theorem c8_standardize_roundtrip_witness :
    ([[(2 : ℝ)], [4]] ≠ [] ∧
        (∀ row ∈ [[(2 : ℝ)], [4]], row.length = [[(2 : ℝ)], [4]].headI.length)) ∧
      ((∀ s ∈ (standardize [[(2 : ℝ)], [4]]).2.2, 0 < s) ∧
        destandardize (standardize [[(2 : ℝ)], [4]]).1 (standardize [[(2 : ℝ)], [4]]).2.1
            (standardize [[(2 : ℝ)], [4]]).2.2 = [[(2 : ℝ)], [4]] ∧
        (∀ i j : ℕ,
          |entry (destandardize (standardize [[(2 : ℝ)], [4]]).1
              (standardize [[(2 : ℝ)], [4]]).2.1 (standardize [[(2 : ℝ)], [4]]).2.2) i j -
            entry [[(2 : ℝ)], [4]] i j| ≤ 1e-9)) := by
  have hne : [[(2 : ℝ)], [4]] ≠ [] := by simp
  have hrect : ∀ row ∈ [[(2 : ℝ)], [4]], row.length = [[(2 : ℝ)], [4]].headI.length := by
    intro row h
    simp only [List.mem_cons, List.not_mem_nil, or_false] at h
    rcases h with rfl | rfl <;> rfl
  exact ⟨⟨hne, hrect⟩, c8_standardize_roundtrip [[(2 : ℝ)], [4]] hne hrect⟩
